import Mathlib

/-!
# chat-server: the message synchronisation core of `src/server.js`

A shallow embedding of the in-memory state of `server.js` (`messageHistory`,
`connectedUsers`) and of the four pieces of code that touch it:

* the `io.on('connection')` handler (lines 116-124),
* the `send_message` handler (lines 127-150) together with `sendToDiscord`
  (lines 161-182),
* the `disconnect` handler (lines 153-157),
* `fetchDiscordMessages` (lines 185-233).

Everything the code reads from outside (the clock, `Math.random`, the result of
each `fetch`) is an explicit argument.  Everything the code sends outside
(`socket.emit`, `io.emit`, the body POSTed to Discord, `console.error`) is
appended to a log kept in the state.  Each handler is a function from state to
state paired with a completion record saying whether an exception escaped.

Node runs every handler on one event loop, so the synchronous section of a
handler is atomic.  `send_message` has no `await` before its last statement and
`fetchDiscordMessages` touches the store only after its last `await`, so each
is modelled as a single atomic step taking the outcome of its network call as
an argument.
-/

namespace ChatServer

/-! ## JavaScript values used by the handlers -/

/-- White space as removed by `String.prototype.trim` (ECMAScript `WhiteSpace`
and `LineTerminator` code points). -/
def isJsWhiteSpace (c : Char) : Bool :=
  decide (c.toNat ∈ [0x09, 0x0A, 0x0B, 0x0C, 0x0D, 0x20, 0xA0, 0x1680, 0x2028, 0x2029,
    0x202F, 0x205F, 0x3000, 0xFEFF]) || (decide (0x2000 ≤ c.toNat) && decide (c.toNat ≤ 0x200A))

/-- The method `String.prototype.trim`: white space removed at both ends. -/
def jsTrim (s : String) : String :=
  String.mk ((s.toList.dropWhile isJsWhiteSpace).reverse.dropWhile isJsWhiteSpace).reverse

/-- Truthiness of a JavaScript string: every string but the empty one. -/
def truthy (s : String) : Bool := s != ""

/-- Truthiness of a value that is a string or `undefined`. -/
def truthyOpt : Option String → Bool
  | none => false
  | some s => truthy s

/-- The expression `a || b` where both sides are a string or `undefined`. -/
def jsOrElse (a b : Option String) : Option String :=
  if truthyOpt a then a else b

/-- The expression `a || 'literal'`. -/
def jsOr (a : Option String) (d : String) : String :=
  match a with
  | some s => if truthy s then s else d
  | none => d

/-- Conversion to string inside a template literal. -/
def jsToString : Option String → String
  | none => "undefined"
  | some s => s

/-- The call `xs.slice(-n)`: the last `n` elements (all of them when there are
fewer). -/
def sliceLast {α : Type} (n : Nat) (xs : List α) : List α :=
  xs.drop (xs.length - n)

/-! ## Data model -/

/-- The `type` field of a stored message. -/
inductive MsgType where
  | website
  | discord
  deriving DecidableEq, Repr

/-- The `id` field of a stored message.  `send_message` stores `Date.now()`;
`fetchDiscordMessages` stores `Date.now() + Math.random()`, a floating point
sum that is kept symbolic here as the pair of its two operands. -/
inductive MsgId where
  | clock (ms : Nat)
  | clockPlusRandom (ms : Nat) (draw : Nat)
  deriving DecidableEq, Repr

/-- An element of `messageHistory`.  A field the object literal does not set
is `none`. -/
structure Message where
  id : MsgId
  discordId : Option String
  content : Option String
  author : String
  timestamp : String
  type : MsgType
  socketId : Option String
  deriving DecidableEq, Repr

/-- The `author` object of a message returned by the Discord API. -/
structure DiscordAuthor where
  bot : Bool
  username : Option String
  global_name : Option String
  deriving DecidableEq, Repr

/-- A message returned by the Discord API. -/
structure DiscordMessage where
  id : String
  content : String
  author : DiscordAuthor
  timestamp : String
  deriving DecidableEq, Repr

/-- The `data` object a client sends with `send_message`; a missing property
is `none`. -/
structure Payload where
  content : Option String
  author : Option String
  deriving DecidableEq, Repr

/-- The two clock reads of the `send_message` handler: `Date.now()` and
`new Date().toISOString()`. -/
structure Clock where
  now : Nat
  iso : String
  deriving DecidableEq, Repr

/-- One evaluation of `Date.now() + Math.random()`. -/
structure Stamp where
  now : Nat
  random : Nat
  deriving DecidableEq, Repr

/-- The payload of an emitted socket.io event. -/
inductive Event where
  | message_history (history : List Message)
  | user_count (count : Nat)
  | new_message (message : Message)
  deriving DecidableEq, Repr

/-- A call of `socket.emit` (one socket) or of `io.emit` (every socket). -/
inductive Emit where
  | toSocket (sid : String) (ev : Event)
  | toAll (ev : Event)
  deriving DecidableEq, Repr

/-- The sockets an emit is delivered to, given the sockets `live` that
socket.io holds open at that moment. -/
def recipients (live : List String) : Emit → List String
  | .toSocket sid _ => [sid]
  | .toAll _ => live

/-- How a handler (or a `try` block) ends: normally, or with an exception that
leaves it. -/
inductive Completion where
  | normal
  | thrown (err : String)
  deriving DecidableEq, Repr

/-- What the `fetch` inside `sendToDiscord` does: it throws, or it resolves to
a response of which the code reads `ok` and `status`. -/
inductive SendOutcome where
  | threw (err : String)
  | response (ok : Bool) (status : Nat)
  deriving DecidableEq, Repr

/-- What the `fetch` inside `fetchDiscordMessages` does: it throws, or it
resolves to a response of which the code reads `ok` and, when `ok`, the parsed
body (`none` when `response.json()` throws). -/
inductive PollOutcome where
  | threw (err : String)
  | response (ok : Bool) (status : Nat) (json : Option (List DiscordMessage))
  deriving DecidableEq, Repr

/-- The state of the server process.  `messageHistory` and `connectedUsers` are
the two module variables (a JavaScript `Set` is an insertion-ordered
collection without repetition).  The other fields are logs of what the code
did: `emitted` the socket.io emits, `discordPosts` the bodies POSTed by
`sendToDiscord`, `errorLog` the `console.error` lines, `pushed` every argument
of `messageHistory.push` in call order. -/
structure State where
  messageHistory : List Message
  connectedUsers : List String
  emitted : List Emit
  discordPosts : List String
  errorLog : List String
  pushed : List Message
  deriving DecidableEq, Repr

/-- The state at process start (lines 25-26). -/
def State.init : State :=
  { messageHistory := [], connectedUsers := [], emitted := [], discordPosts := [],
    errorLog := [], pushed := [] }

/-! ## Primitive effects -/

/-- The method `Set.prototype.add`. -/
def setAdd (s : List String) (x : String) : List String :=
  if x ∈ s then s else s ++ [x]

/-- The method `Set.prototype.delete`. -/
def setDelete (s : List String) (x : String) : List String :=
  s.filter (fun y => y != x)

/-- The call `messageHistory.push(m)`. -/
def push (m : Message) (s : State) : State :=
  { s with messageHistory := s.messageHistory ++ [m], pushed := s.pushed ++ [m] }

/-- The statement `if (messageHistory.length > 100) messageHistory =
messageHistory.slice(-100)`. -/
def trimHistory (s : State) : State :=
  if s.messageHistory.length > 100 then
    { s with messageHistory := sliceLast 100 s.messageHistory }
  else s

/-- The call `io.emit(...)`. -/
def ioEmit (ev : Event) (s : State) : State :=
  { s with emitted := s.emitted ++ [Emit.toAll ev] }

/-- The call `socket.emit(...)` on the socket `sid`. -/
def socketEmit (sid : String) (ev : Event) (s : State) : State :=
  { s with emitted := s.emitted ++ [Emit.toSocket sid ev] }

/-- The call `console.error(...)`. -/
def consoleError (line : String) (s : State) : State :=
  { s with errorLog := s.errorLog ++ [line] }

/-! ## Configuration -/

/-- The literal on line 21 that stands in for a missing `DISCORD_BOT_TOKEN`
environment variable (shortened; the code only tests it for truthiness). -/
def defaultToken : String := "MTM5NTk4NjA4NDQzNjkwNjAxNQ"

/-- Line 21: `process.env.DISCORD_BOT_TOKEN || '...'`. -/
def DISCORD_BOT_TOKEN (envToken : Option String) : String :=
  jsOr envToken defaultToken

/-! ## Handlers -/

/-- The body of `io.on('connection')` up to the registration of the two
per-socket handlers (lines 117-124). -/
def connection (sid : String) (s : State) : Completion × State :=
  let s1 := { s with connectedUsers := setAdd s.connectedUsers sid }
  let s2 := socketEmit sid (Event.message_history s1.messageHistory) s1
  let s3 := ioEmit (Event.user_count s2.connectedUsers.length) s2
  (Completion.normal, s3)

/-- The `disconnect` handler (lines 153-157). -/
def disconnect (sid : String) (s : State) : Completion × State :=
  let s1 := { s with connectedUsers := setDelete s.connectedUsers sid }
  let s2 := ioEmit (Event.user_count s1.connectedUsers.length) s1
  (Completion.normal, s2)

/-- The `try` block of `sendToDiscord` (lines 163-178). -/
def sendToDiscordTry (content : Option String) (author : String) (out : SendOutcome)
    (s : State) : Completion × State :=
  let body := "**" ++ author ++ "** (from website): " ++ jsToString content
  let s1 := { s with discordPosts := s.discordPosts ++ [body] }
  match out with
  | .threw err => (Completion.thrown err, s1)
  | .response ok status =>
    if !ok then
      (Completion.normal,
        consoleError ("Failed to send message to Discord: " ++ toString status) s1)
    else (Completion.normal, s1)

/-- The function `sendToDiscord` (lines 161-182): the `try` block and its
`catch`. -/
def sendToDiscord (content : Option String) (author : String) (out : SendOutcome)
    (s : State) : Completion × State :=
  match sendToDiscordTry content author out s with
  | (.normal, s1) => (Completion.normal, s1)
  | (.thrown err, s1) => (Completion.normal, consoleError ("Error sending to Discord: " ++ err) s1)

/-- The object literal of lines 128-135. -/
def websiteMessage (sid : String) (data : Payload) (clk : Clock) : Message :=
  { id := MsgId.clock clk.now
    discordId := none
    content := data.content
    author := jsOr data.author "Anonymous"
    timestamp := clk.iso
    type := MsgType.website
    socketId := some sid }

/-- The `send_message` handler of the socket `sid` (lines 127-150), called
with a `data` object. -/
def send_message (sid : String) (data : Payload) (clk : Clock) (out : SendOutcome)
    (s : State) : Completion × State :=
  let message := websiteMessage sid data clk
  let s1 := push message s
  let s2 := trimHistory s1
  let s3 := ioEmit (Event.new_message message) s2
  sendToDiscord message.content message.author out s3

/-- The first filter of line 203: `!msg.author.bot && msg.content.trim()`. -/
def keepsRemote (msg : DiscordMessage) : Bool :=
  !msg.author.bot && truthy (jsTrim msg.content)

/-- The second filter (lines 204-209): no element of `messageHistory` has type
`'discord'` and `discordId` equal to `msg.id`. -/
def notInHistory (history : List Message) (msg : DiscordMessage) : Bool :=
  !history.any (fun histMsg => decide (histMsg.type = MsgType.discord) &&
    decide (histMsg.discordId = some msg.id))

/-- The object literal of lines 210-217. -/
def discordMessage (st : Stamp) (msg : DiscordMessage) : Message :=
  { id := MsgId.clockPlusRandom st.now st.random
    discordId := some msg.id
    content := some msg.content
    author := jsOr (jsOrElse msg.author.username msg.author.global_name) "Discord User"
    timestamp := msg.timestamp
    type := MsgType.discord
    socketId := none }

/-- The `.map` of lines 210-217; the `i`-th callback evaluates
`Date.now() + Math.random()` to `env i`. -/
def mapStamped (env : Nat → Stamp) : Nat → List DiscordMessage → List Message
  | _, [] => []
  | i, msg :: rest => discordMessage (env i) msg :: mapStamped env (i + 1) rest

/-- The chain of lines 202-217 that builds `newDiscordMessages`. -/
def newDiscordMessages (env : Nat → Stamp) (history : List Message)
    (messages : List DiscordMessage) : List Message :=
  mapStamped env 0 ((messages.filter keepsRemote).filter (notInHistory history))

/-- The `forEach` of lines 220-223. -/
def pushAndBroadcast (news : List Message) (s : State) : State :=
  news.foldl (fun st message => ioEmit (Event.new_message message) (push message st)) s

/-- The `try` block of `fetchDiscordMessages` (lines 187-229). -/
def fetchDiscordMessagesTry (envToken : Option String) (poll : PollOutcome)
    (env : Nat → Stamp) (s : State) : Completion × State :=
  if !truthy (DISCORD_BOT_TOKEN envToken) then (Completion.normal, s)
  else
    match poll with
    | .threw err => (Completion.thrown err, s)
    | .response ok _ json =>
      if ok then
        match json with
        | none => (Completion.thrown "invalid json response body", s)
        | some messages =>
          let news := newDiscordMessages env s.messageHistory messages
          let s1 := pushAndBroadcast news s
          (Completion.normal, trimHistory s1)
      else (Completion.normal, s)

/-- The function `fetchDiscordMessages` (lines 185-233): the `try` block and
its `catch`. -/
def fetchDiscordMessages (envToken : Option String) (poll : PollOutcome)
    (env : Nat → Stamp) (s : State) : Completion × State :=
  match fetchDiscordMessagesTry envToken poll env s with
  | (.normal, s1) => (Completion.normal, s1)
  | (.thrown err, s1) =>
    (Completion.normal, consoleError ("Error fetching Discord messages: " ++ err) s1)

/-! ## Runs -/

/-- One thing that can happen to the process. -/
inductive Op where
  | connect (sid : String)
  | disconnect (sid : String)
  | send (sid : String) (data : Payload) (clk : Clock) (out : SendOutcome)
  | poll (outcome : PollOutcome) (env : Nat → Stamp)

/-- The handler an operation runs. -/
def step (envToken : Option String) (op : Op) (s : State) : Completion × State :=
  match op with
  | .connect sid => connection sid s
  | .disconnect sid => disconnect sid s
  | .send sid data clk out => send_message sid data clk out s
  | .poll outcome env => fetchDiscordMessages envToken outcome env s

/-- The state after a sequence of operations.  No handler lets an exception
escape (`step_normal`), so the run never stops early. -/
def run (envToken : Option String) (ops : List Op) (s : State) : State :=
  ops.foldl (fun st op => (step envToken op st).2) s

/-! ## Vocabulary of the statements -/

/-- The number of stored messages whose `discordId` is `rid`. -/
def occurrences (rid : String) (history : List Message) : Nat :=
  history.countP (fun m => decide (m.discordId = some rid))

/-- The store invariant of the remote ids: no remote id twice, and only messages of
type `'discord'` carry a `discordId`. -/
def RemoteIdsOnce (history : List Message) : Prop :=
  (∀ rid, occurrences rid history ≤ 1) ∧
  ∀ m ∈ history, ∀ rid, m.discordId = some rid → m.type = MsgType.discord

/-- The message ids of a polled batch are pairwise distinct (nothing is asked
of the other operations). -/
def distinctBatch : Op → Prop
  | .poll (.response _ _ (some messages)) _ => (messages.map (fun r => r.id)).Nodup
  | _ => True

/-- A string is blank: it is empty or consists of white space only. -/
def isBlank (content : String) : Bool :=
  content.toList.all isJsWhiteSpace

/-- The messages of a batch that belong in the feed, in the words of the
specification: not written by a bot, content not blank, and id not the
`discordId` of a remote message of the store. -/
def admitted (history : List Message) (batch : List DiscordMessage) : List DiscordMessage :=
  batch.filter (fun r => decide (r.author.bot = false ∧ isBlank r.content = false ∧
    ∀ m ∈ history, ¬ (m.type = MsgType.discord ∧ m.discordId = some r.id)))

/-- A stored message is the unified form of a remote message. -/
def UnifiedFrom (r : DiscordMessage) (m : Message) : Prop :=
  m.type = MsgType.discord ∧ m.discordId = some r.id ∧ m.content = some r.content ∧
    m.timestamp = r.timestamp

/-- A remote message with id `"42"` written by a person. -/
def remote42 : DiscordMessage :=
  { id := "42", content := "hello"
    author := { bot := false, username := some "alice", global_name := none }
    timestamp := "2024-01-01T00:00:00.000Z" }

/-- A remote message with the given id written by a person. -/
def remoteWithId (rid : String) : DiscordMessage :=
  { id := rid, content := "news"
    author := { bot := false, username := none, global_name := some "Bob" }
    timestamp := "2024-01-01T00:00:05.000Z" }

/-- A state whose store is full: 100 website messages. -/
def fullState : State :=
  { State.init with
    messageHistory := List.replicate 100
      { id := MsgId.clock 1700000000000, discordId := none, content := some "hi",
        author := "Anonymous", timestamp := "2024-01-01T00:00:00.000Z",
        type := MsgType.website, socketId := some "s1" } }

/-- A session event: a socket connects or disconnects. -/
inductive SessionEvent where
  | join (sid : String)
  | leave (sid : String)
  deriving DecidableEq, Repr

/-- The socket a session event is about. -/
def SessionEvent.sid : SessionEvent → String
  | .join sid => sid
  | .leave sid => sid

/-- The handler a session event triggers. -/
def SessionEvent.toOp : SessionEvent → Op
  | .join sid => Op.connect sid
  | .leave sid => Op.disconnect sid

/-- A socket is connected after a trace of session events when the last event
about it is a join. -/
def connectedAfter (tr : List SessionEvent) (sid : String) : Bool :=
  match tr.reverse.find? (fun e => e.sid == sid) with
  | some (.join _) => true
  | _ => false

/-- The number of sockets connected after a trace of session events. -/
def liveCount (tr : List SessionEvent) : Nat :=
  ((tr.map SessionEvent.sid).dedup.filter (connectedAfter tr)).length

/-- The values of the `user_count` events emitted to all sockets, in order. -/
def userCounts (emits : List Emit) : List Nat :=
  emits.filterMap (fun e =>
    match e with
    | .toAll (.user_count n) => some n
    | _ => none)

/-- A clock read at millisecond 1700000000000. -/
def clockAt : Clock := { now := 1700000000000, iso := "2023-11-14T22:13:20.000Z" }

/-- The evaluations of `Date.now() + Math.random()` used in the examples. -/
def stamps : Nat → Stamp := fun i => { now := 1700000000000, random := i }

/-! ## Basic facts about the primitives -/

theorem sliceLast_length_le {α : Type} (n : Nat) (xs : List α) :
    (sliceLast n xs).length ≤ n := by
  unfold sliceLast
  rw [List.length_drop]
  omega

theorem sliceLast_length {α : Type} (n : Nat) (xs : List α) :
    (sliceLast n xs).length = min n xs.length := by
  unfold sliceLast
  rw [List.length_drop]
  omega

theorem sliceLast_of_length_le {α : Type} (n : Nat) (xs : List α) (h : xs.length ≤ n) :
    sliceLast n xs = xs := by
  unfold sliceLast
  have : xs.length - n = 0 := by omega
  rw [this, List.drop_zero]

/-- Trimming a list that was already trimmed and then extended gives the same
as trimming the untrimmed extended list. -/
theorem sliceLast_append_sliceLast {α : Type} (n : Nat) (p q : List α) :
    sliceLast n (sliceLast n p ++ q) = sliceLast n (p ++ q) := by
  by_cases hp : p.length ≤ n
  · rw [sliceLast_of_length_le n p hp]
  · have hk : p.length - n ≤ p.length := Nat.sub_le _ _
    have hlen : (sliceLast n p).length = n := by
      rw [sliceLast_length]; omega
    unfold sliceLast at hlen ⊢
    rw [List.length_append, List.length_append, hlen]
    have e1 : n + q.length - n = q.length := by omega
    have e2 : p.length + q.length - n = (p.length - n) + q.length := by omega
    rw [e1, e2, ← List.drop_drop, List.drop_append_of_le_length hk]

theorem trimHistory_eq (s : State) :
    trimHistory s = { s with messageHistory := sliceLast 100 s.messageHistory } := by
  unfold trimHistory
  split
  · rfl
  · rename_i h
    rw [sliceLast_of_length_le 100 _ (by omega)]

theorem pushAndBroadcast_eq (news : List Message) (s : State) :
    pushAndBroadcast news s =
      { s with messageHistory := s.messageHistory ++ news
               pushed := s.pushed ++ news
               emitted := s.emitted ++ news.map (fun m => Emit.toAll (Event.new_message m)) } := by
  unfold pushAndBroadcast
  induction news generalizing s with
  | nil => simp
  | cons m rest ih =>
    rw [List.foldl_cons, ih]
    simp [ioEmit, push]

theorem mapStamped_length (env : Nat → Stamp) (i : Nat) (msgs : List DiscordMessage) :
    (mapStamped env i msgs).length = msgs.length := by
  induction msgs generalizing i with
  | nil => rfl
  | cons m rest ih => simp [mapStamped, ih]

theorem mapStamped_discordId (env : Nat → Stamp) (i : Nat) (msgs : List DiscordMessage) :
    (mapStamped env i msgs).map (fun m => m.discordId) = msgs.map (fun r => some r.id) := by
  induction msgs generalizing i with
  | nil => rfl
  | cons m rest ih => simp [mapStamped, ih, discordMessage]

theorem mapStamped_type (env : Nat → Stamp) (i : Nat) (msgs : List DiscordMessage) :
    ∀ m ∈ mapStamped env i msgs, m.type = MsgType.discord ∧ m.discordId.isSome = true := by
  induction msgs generalizing i with
  | nil => intro m hm; simp [mapStamped] at hm
  | cons r rest ih =>
    intro m hm
    simp only [mapStamped, List.mem_cons] at hm
    rcases hm with rfl | hm
    · simp [discordMessage]
    · exact ih _ m hm

/-- The default token is truthy, so the guard on line 187 never returns. -/
theorem token_truthy (envToken : Option String) :
    truthy (DISCORD_BOT_TOKEN envToken) = true := by
  unfold DISCORD_BOT_TOKEN jsOr
  cases envToken with
  | none => decide
  | some t =>
    by_cases h : truthy t = true
    · simp [h]
    · simp [h]; decide

/-- What `sendToDiscord` does to the state: one POST body logged, and an error
line exactly when the send did not succeed. -/
theorem sendToDiscord_eq (content : Option String) (author : String) (out : SendOutcome)
    (s : State) :
    ∃ errs, sendToDiscord content author out s =
      (Completion.normal,
        { s with discordPosts := s.discordPosts ++
                   ["**" ++ author ++ "** (from website): " ++ jsToString content]
                 errorLog := s.errorLog ++ errs }) := by
  cases out with
  | threw err => exact ⟨[_], rfl⟩
  | response ok status =>
    cases ok with
    | true => exact ⟨[], by simp [sendToDiscord, sendToDiscordTry]⟩
    | false => exact ⟨[_], rfl⟩

/-- What a poll does to the state, in closed form. -/
theorem fetchDiscordMessages_ok_eq (envToken : Option String) (status : Nat)
    (messages : List DiscordMessage) (env : Nat → Stamp) (s : State) :
    fetchDiscordMessages envToken (PollOutcome.response true status (some messages)) env s =
      (Completion.normal,
        { s with messageHistory :=
                   sliceLast 100 (s.messageHistory ++ newDiscordMessages env s.messageHistory messages)
                 pushed := s.pushed ++ newDiscordMessages env s.messageHistory messages
                 emitted := s.emitted ++ (newDiscordMessages env s.messageHistory messages).map
                   (fun m => Emit.toAll (Event.new_message m)) }) := by
  simp [fetchDiscordMessages, fetchDiscordMessagesTry, token_truthy, trimHistory_eq,
    pushAndBroadcast_eq]

/-- A poll that did not deliver a batch changes at most the error log. -/
theorem fetchDiscordMessages_fail_eq (envToken : Option String) (poll : PollOutcome)
    (env : Nat → Stamp) (s : State)
    (h : ∀ status messages, poll ≠ PollOutcome.response true status (some messages)) :
    ∃ errs, fetchDiscordMessages envToken poll env s =
      (Completion.normal, { s with errorLog := s.errorLog ++ errs }) := by
  cases poll with
  | threw err =>
    exact ⟨["Error fetching Discord messages: " ++ err], by
      simp [fetchDiscordMessages, fetchDiscordMessagesTry, token_truthy, consoleError]⟩
  | response ok status json =>
    cases ok with
    | false =>
      exact ⟨[], by simp [fetchDiscordMessages, fetchDiscordMessagesTry, token_truthy]⟩
    | true =>
      cases json with
      | none =>
        exact ⟨["Error fetching Discord messages: " ++ "invalid json response body"], by
          simp [fetchDiscordMessages, fetchDiscordMessagesTry, token_truthy, consoleError]⟩
      | some messages => exact absurd rfl (h status messages)

/-- No handler lets an exception escape. -/
theorem step_normal (envToken : Option String) (op : Op) (s : State) :
    (step envToken op s).1 = Completion.normal := by
  cases op with
  | connect sid => rfl
  | disconnect sid => rfl
  | send sid data clk out =>
    obtain ⟨errs, h⟩ := sendToDiscord_eq (websiteMessage sid data clk).content
      (websiteMessage sid data clk).author out
      (ioEmit (Event.new_message (websiteMessage sid data clk))
        (trimHistory (push (websiteMessage sid data clk) s)))
    simp only [step, send_message, h]
  | poll outcome env =>
    simp only [step, fetchDiscordMessages]
    split <;> rfl

theorem run_nil (envToken : Option String) (s : State) : run envToken [] s = s := rfl

theorem run_append (envToken : Option String) (ops : List Op) (op : Op) (s : State) :
    run envToken (ops ++ [op]) s = (step envToken op (run envToken ops s)).2 := by
  simp [run, List.foldl_append]

/-! ## The store after a step -/

/-- What `send_message` does to the state, in closed form. -/
theorem send_message_eq (sid : String) (data : Payload) (clk : Clock) (out : SendOutcome)
    (s : State) :
    ∃ errs, send_message sid data clk out s =
      (Completion.normal,
        { s with messageHistory := sliceLast 100 (s.messageHistory ++ [websiteMessage sid data clk])
                 pushed := s.pushed ++ [websiteMessage sid data clk]
                 emitted := s.emitted ++ [Emit.toAll (Event.new_message (websiteMessage sid data clk))]
                 discordPosts := s.discordPosts ++
                   ["**" ++ jsOr data.author "Anonymous" ++ "** (from website): " ++
                     jsToString data.content]
                 errorLog := s.errorLog ++ errs }) := by
  obtain ⟨errs, h⟩ := sendToDiscord_eq (websiteMessage sid data clk).content
    (websiteMessage sid data clk).author out
    (ioEmit (Event.new_message (websiteMessage sid data clk))
      (trimHistory (push (websiteMessage sid data clk) s)))
  refine ⟨errs, ?_⟩
  have e : send_message sid data clk out s =
      sendToDiscord (websiteMessage sid data clk).content (websiteMessage sid data clk).author out
        (ioEmit (Event.new_message (websiteMessage sid data clk))
          (trimHistory (push (websiteMessage sid data clk) s))) := rfl
  rw [e, h, trimHistory_eq]
  simp [ioEmit, push, websiteMessage]

/-- Every step either leaves the store alone or pushes some messages and then
keeps the last 100. -/
theorem step_store (envToken : Option String) (op : Op) (s : State) :
    ((step envToken op s).2.messageHistory = s.messageHistory ∧
      (step envToken op s).2.pushed = s.pushed) ∨
    ∃ news, (step envToken op s).2.messageHistory = sliceLast 100 (s.messageHistory ++ news) ∧
      (step envToken op s).2.pushed = s.pushed ++ news := by
  cases op with
  | connect sid => exact Or.inl ⟨rfl, rfl⟩
  | disconnect sid => exact Or.inl ⟨rfl, rfl⟩
  | send sid data clk out =>
    obtain ⟨errs, h⟩ := send_message_eq sid data clk out s
    exact Or.inr ⟨[websiteMessage sid data clk], by simp [step, h]⟩
  | poll outcome env =>
    by_cases hok : ∃ status messages, outcome = PollOutcome.response true status (some messages)
    · obtain ⟨status, messages, rfl⟩ := hok
      exact Or.inr ⟨newDiscordMessages env s.messageHistory messages, by
        simp [step, fetchDiscordMessages_ok_eq]⟩
    · obtain ⟨errs, h⟩ := fetchDiscordMessages_fail_eq envToken outcome env s
        (fun status messages e => hok ⟨status, messages, e⟩)
      exact Or.inl (by simp [step, h])

theorem run_store_inv (envToken : Option String) (ops : List Op) :
    (run envToken ops State.init).messageHistory =
      sliceLast 100 (run envToken ops State.init).pushed := by
  induction ops using List.reverseRecOn with
  | nil => rfl
  | append_singleton ops op ih =>
    rw [run_append]
    rcases step_store envToken op (run envToken ops State.init) with ⟨h1, h2⟩ | ⟨news, h1, h2⟩
    · rw [h1, h2, ih]
    · rw [h1, h2, ih, sliceLast_append_sliceLast]

/-- C1: after any sequence of operations from the initial state the store holds
at most 100 messages, exactly `min 100 n` of them where `n` is the number of
`messageHistory.push` calls made so far, and they are the last `min 100 n`
pushed messages in push order. -/
theorem history_is_last_100_pushed (envToken : Option String) (ops : List Op) :
    (run envToken ops State.init).messageHistory.length ≤ 100 ∧
    (run envToken ops State.init).messageHistory.length =
      min 100 (run envToken ops State.init).pushed.length ∧
    (run envToken ops State.init).messageHistory =
      (run envToken ops State.init).pushed.drop
        ((run envToken ops State.init).pushed.length - min 100 (run envToken ops State.init).pushed.length) := by
  have h := run_store_inv envToken ops
  refine ⟨?_, ?_, ?_⟩
  · rw [h]; exact sliceLast_length_le _ _
  · rw [h]; exact sliceLast_length _ _
  · have e : (run envToken ops State.init).pushed.length -
        min 100 (run envToken ops State.init).pushed.length =
        (run envToken ops State.init).pushed.length - 100 := by omega
    rw [e]; exact h

/-! ## Remote ids -/

/-- C3, as stated, fails: a batch that carries the id `"42"` twice passes the
history filter twice (the filter looks at the store before anything is pushed)
and the store then holds two messages with `discordId` `"42"`. -/
theorem remote_id_twice_after_repeating_batch :
    occurrences "42"
      (run none [Op.poll (PollOutcome.response true 200 (some [remote42, remote42])) stamps]
        State.init).messageHistory = 2 := by
  decide

theorem occurrences_append (rid : String) (a b : List Message) :
    occurrences rid (a ++ b) = occurrences rid a + occurrences rid b := by
  simp [occurrences, List.countP_append]

theorem occurrences_sliceLast_le (rid : String) (n : Nat) (h : List Message) :
    occurrences rid (sliceLast n h) ≤ occurrences rid h :=
  List.Sublist.countP_le _ (List.drop_sublist _ _)

theorem occurrences_mapStamped (rid : String) (env : Nat → Stamp) (i : Nat)
    (msgs : List DiscordMessage) :
    occurrences rid (mapStamped env i msgs) = (msgs.map (fun r => r.id)).count rid := by
  induction msgs generalizing i with
  | nil => rfl
  | cons r rest ih =>
    have ih2 := ih (i + 1)
    unfold occurrences at ih2 ⊢
    simp only [mapStamped, List.countP_cons, List.map_cons, List.count_cons, ih2]
    simp [discordMessage]

theorem remoteIdsOnce_sliceLast (n : Nat) (history : List Message)
    (h : RemoteIdsOnce history) : RemoteIdsOnce (sliceLast n history) :=
  ⟨fun rid => le_trans (occurrences_sliceLast_le rid n history) (h.1 rid),
   fun m hm rid e => h.2 m (List.mem_of_mem_drop hm) rid e⟩

theorem remoteIdsOnce_poll (env : Nat → Stamp) (history : List Message)
    (messages : List DiscordMessage) (hd : (messages.map (fun r => r.id)).Nodup)
    (h : RemoteIdsOnce history) :
    RemoteIdsOnce (history ++ newDiscordMessages env history messages) := by
  have hnd : (((messages.filter keepsRemote).filter (notInHistory history)).map
      (fun r => r.id)).Nodup :=
    hd.sublist (((List.filter_sublist _).trans (List.filter_sublist _)).map _)
  constructor
  · intro rid
    rw [occurrences_append]
    unfold newDiscordMessages
    rw [occurrences_mapStamped]
    have h1 := List.nodup_iff_count_le_one.mp hnd rid
    by_cases hpos : 0 < occurrences rid history
    · obtain ⟨m, hm, hp⟩ := List.countP_pos_iff.mp hpos
      have hid : m.discordId = some rid := of_decide_eq_true hp
      have hty := h.2 m hm rid hid
      have hnot : rid ∉ ((messages.filter keepsRemote).filter (notInHistory history)).map
          (fun r => r.id) := by
        intro hmem
        obtain ⟨r, hr, rfl⟩ := List.mem_map.mp hmem
        have hr2 := (List.mem_filter.mp hr).2
        unfold notInHistory at hr2
        simp only [Bool.not_eq_true', List.any_eq_false, Bool.and_eq_true, decide_eq_true_eq,
          not_and] at hr2
        exact hr2 m hm hty hid
      rw [List.count_eq_zero_of_not_mem hnot]
      exact h.1 rid
    · have : occurrences rid history = 0 := by omega
      omega
  · intro m hm rid e
    rcases List.mem_append.mp hm with hm | hm
    · exact h.2 m hm rid e
    · exact (mapStamped_type env 0 _ m hm).1

theorem remoteIdsOnce_step (envToken : Option String) (op : Op) (s : State)
    (hd : distinctBatch op) (h : RemoteIdsOnce s.messageHistory) :
    RemoteIdsOnce (step envToken op s).2.messageHistory := by
  cases op with
  | connect sid => exact h
  | disconnect sid => exact h
  | send sid data clk out =>
    obtain ⟨errs, e⟩ := send_message_eq sid data clk out s
    simp only [step, e]
    apply remoteIdsOnce_sliceLast
    constructor
    · intro rid
      rw [occurrences_append]
      have : occurrences rid [websiteMessage sid data clk] = 0 := by
        simp [occurrences, websiteMessage]
      rw [this]
      exact h.1 rid
    · intro m hm rid e2
      rcases List.mem_append.mp hm with hm | hm
      · exact h.2 m hm rid e2
      · rw [List.mem_singleton] at hm
        subst hm
        simp [websiteMessage] at e2
  | poll outcome env =>
    by_cases hok : ∃ status messages, outcome = PollOutcome.response true status (some messages)
    · obtain ⟨status, messages, rfl⟩ := hok
      simp only [step, fetchDiscordMessages_ok_eq]
      exact remoteIdsOnce_sliceLast _ _ (remoteIdsOnce_poll env _ messages hd h)
    · obtain ⟨errs, e⟩ := fetchDiscordMessages_fail_eq envToken outcome env s
        (fun status messages e => hok ⟨status, messages, e⟩)
      simp only [step, e]
      exact h

theorem remoteIdsOnce_run (envToken : Option String) (ops : List Op)
    (hd : ∀ op ∈ ops, distinctBatch op) :
    RemoteIdsOnce (run envToken ops State.init).messageHistory := by
  induction ops using List.reverseRecOn with
  | nil => exact ⟨fun rid => by simp [run, State.init, occurrences], fun m hm => by
      simp [run, State.init] at hm⟩
  | append_singleton ops op ih =>
    rw [run_append]
    exact remoteIdsOnce_step envToken op _ (hd op (by simp))
      (ih (fun o ho => hd o (by simp [ho])))

/-- C3 (amended): in every state reached from the initial state by operations
whose polled batches each carry pairwise distinct message ids, every remote id
is the `discordId` of at most one stored message. -/
theorem remote_id_at_most_once (envToken : Option String) (ops : List Op)
    (hd : ∀ op ∈ ops, distinctBatch op) (rid : String) :
    occurrences rid (run envToken ops State.init).messageHistory ≤ 1 :=
  (remoteIdsOnce_run envToken ops hd).1 rid

/-- C3 (amended) at a concrete run: the same one-message batch polled twice. -/
theorem remote_id_at_most_once_witness :
    (∀ op ∈ [Op.poll (PollOutcome.response true 200 (some [remote42])) stamps,
        Op.poll (PollOutcome.response true 200 (some [remote42])) stamps], distinctBatch op) ∧
    occurrences "42"
      (run none [Op.poll (PollOutcome.response true 200 (some [remote42])) stamps,
        Op.poll (PollOutcome.response true 200 (some [remote42])) stamps]
        State.init).messageHistory ≤ 1 :=
  ⟨by simp [distinctBatch], remote_id_at_most_once none _ (by simp [distinctBatch]) "42"⟩

/-! ## Polling -/

theorem dropWhile_eq_nil_iff_all {α : Type} (p : α → Bool) (l : List α) :
    l.dropWhile p = [] ↔ l.all p = true := by
  induction l with
  | nil => simp
  | cons a rest ih =>
    by_cases h : p a = true
    · simp [List.dropWhile_cons, h, ih]
    · simp [List.dropWhile_cons, h]

theorem dropWhile_head_fails {α : Type} (p : α → Bool) (l : List α) (a : α) (rest : List α)
    (h : l.dropWhile p = a :: rest) : p a = false := by
  induction l with
  | nil => simp at h
  | cons b tl ih =>
    by_cases hb : p b = true
    · rw [List.dropWhile_cons, if_pos hb] at h
      exact ih h
    · rw [List.dropWhile_cons, if_neg hb] at h
      injection h with h1 h2
      subst h1
      simpa using hb

/-- The test `msg.content.trim()` is true exactly when the content is not
blank. -/
theorem truthy_trim_iff_not_blank (content : String) :
    truthy (jsTrim content) = !isBlank content := by
  have key : jsTrim content = "" ↔ isBlank content = true := by
    unfold jsTrim isBlank
    rw [← dropWhile_eq_nil_iff_all]
    constructor
    · intro h
      have h1 : ((content.toList.dropWhile isJsWhiteSpace).reverse.dropWhile isJsWhiteSpace).reverse
          = [] := by
        have := congrArg String.toList h
        simpa using this
      rw [List.reverse_eq_nil_iff, dropWhile_eq_nil_iff_all] at h1
      cases hd : content.toList.dropWhile isJsWhiteSpace with
      | nil => rfl
      | cons a rest =>
        have hf := dropWhile_head_fails _ _ _ _ hd
        rw [hd] at h1
        simp [hf] at h1
    · intro h
      rw [h]
      rfl
  unfold truthy
  by_cases hb : isBlank content = true
  · rw [hb, key.mpr hb]; rfl
  · have hne : jsTrim content ≠ "" := fun e => hb (key.mp e)
    simp [hb, hne]

/-- The two filters of lines 203-209 select the admitted messages. -/
theorem filters_eq_admitted (history : List Message) (batch : List DiscordMessage) :
    (batch.filter keepsRemote).filter (notInHistory history) = admitted history batch := by
  unfold admitted
  rw [List.filter_filter]
  apply List.filter_congr
  intro r _
  have h3 : notInHistory history r = decide (∀ m ∈ history,
      ¬ (m.type = MsgType.discord ∧ m.discordId = some r.id)) := by
    unfold notInHistory
    rw [Bool.eq_iff_iff]
    simp
  simp only [keepsRemote, h3, truthy_trim_iff_not_blank]
  cases hb : r.author.bot <;> cases hc : isBlank r.content <;> simp

theorem mapStamped_unified (env : Nat → Stamp) (i : Nat) (msgs : List DiscordMessage) :
    List.Forall₂ UnifiedFrom msgs (mapStamped env i msgs) := by
  induction msgs generalizing i with
  | nil => exact List.Forall₂.nil
  | cons r rest ih =>
    exact List.Forall₂.cons ⟨rfl, rfl, rfl, rfl⟩ (ih (i + 1))

/-- C4: when the store holds at most 100 messages and every message of a
successfully polled batch has an id that is the `discordId` of a stored message
of type `'discord'`, `fetchDiscordMessages` completes normally and changes
nothing: the store is the same and nothing is emitted. -/
theorem repoll_of_known_ids_is_silent (envToken : Option String) (status : Nat)
    (messages : List DiscordMessage) (env : Nat → Stamp) (s : State)
    (hlen : s.messageHistory.length ≤ 100)
    (hknown : ∀ r ∈ messages, ∃ m ∈ s.messageHistory,
      m.type = MsgType.discord ∧ m.discordId = some r.id) :
    fetchDiscordMessages envToken (PollOutcome.response true status (some messages)) env s =
      (Completion.normal, s) ∧
    (fetchDiscordMessages envToken (PollOutcome.response true status (some messages)) env
      s).2.messageHistory = s.messageHistory ∧
    (fetchDiscordMessages envToken (PollOutcome.response true status (some messages)) env
      s).2.emitted = s.emitted := by
  have hnone : newDiscordMessages env s.messageHistory messages = [] := by
    unfold newDiscordMessages
    rw [filters_eq_admitted]
    have : admitted s.messageHistory messages = [] := by
      unfold admitted
      rw [List.filter_eq_nil_iff]
      intro r hr
      obtain ⟨m, hm, hty, hid⟩ := hknown r hr
      simp only [decide_eq_true_eq, not_and]
      intro _ _ hall
      exact hall m hm hty hid
    rw [this]
    rfl
  have e : fetchDiscordMessages envToken (PollOutcome.response true status (some messages)) env s =
      (Completion.normal, s) := by
    rw [fetchDiscordMessages_ok_eq, hnone]
    simp [sliceLast_of_length_le 100 _ hlen]
  refine ⟨e, ?_, ?_⟩ <;> rw [e]

/-- C4 at the specification's scenario: the store holds remote id `"42"` and
the batch contains id `"42"` again. -/
theorem repoll_of_known_ids_is_silent_witness :
    (fetchDiscordMessages none (PollOutcome.response true 200 (some [remote42])) stamps
      State.init).2.messageHistory.length ≤ 100 ∧
    fetchDiscordMessages none (PollOutcome.response true 200 (some [remote42])) stamps
      (fetchDiscordMessages none (PollOutcome.response true 200 (some [remote42])) stamps
        State.init).2 =
      (Completion.normal,
        (fetchDiscordMessages none (PollOutcome.response true 200 (some [remote42])) stamps
          State.init).2) :=
  ⟨by decide,
   (repoll_of_known_ids_is_silent none 200 [remote42] stamps
      (fetchDiscordMessages none (PollOutcome.response true 200 (some [remote42])) stamps
        State.init).2 (by decide) (by decide)).1⟩

/-- C5: a successful poll of batch `b` on store `h` appends the unified form of
the admitted messages of `b` (not bot-authored, not blank, id not the
`discordId` of a remote message of `h`), in the order received, keeps the last
100 of the result, and emits one `new_message` to all per admitted message in
that order.  With `|h| = 100` and three admitted messages the store again has
100 messages, the three oldest of `h` are gone, and three events were
emitted. -/
theorem poll_appends_admitted_in_order (envToken : Option String) (status : Nat)
    (messages : List DiscordMessage) (env : Nat → Stamp) (s : State) :
    List.Forall₂ UnifiedFrom (admitted s.messageHistory messages)
      (mapStamped env 0 (admitted s.messageHistory messages)) ∧
    (mapStamped env 0 (admitted s.messageHistory messages)).length =
      (admitted s.messageHistory messages).length ∧
    (fetchDiscordMessages envToken (PollOutcome.response true status (some messages)) env
      s).1 = Completion.normal ∧
    (fetchDiscordMessages envToken (PollOutcome.response true status (some messages)) env
      s).2.messageHistory =
      sliceLast 100 (s.messageHistory ++ mapStamped env 0 (admitted s.messageHistory messages)) ∧
    (fetchDiscordMessages envToken (PollOutcome.response true status (some messages)) env
      s).2.emitted =
      s.emitted ++ (mapStamped env 0 (admitted s.messageHistory messages)).map
        (fun m => Emit.toAll (Event.new_message m)) ∧
    (s.messageHistory.length = 100 → (admitted s.messageHistory messages).length = 3 →
      (fetchDiscordMessages envToken (PollOutcome.response true status (some messages)) env
        s).2.messageHistory.length = 100 ∧
      (fetchDiscordMessages envToken (PollOutcome.response true status (some messages)) env
        s).2.messageHistory =
        s.messageHistory.drop 3 ++ mapStamped env 0 (admitted s.messageHistory messages) ∧
      (fetchDiscordMessages envToken (PollOutcome.response true status (some messages)) env
        s).2.emitted.length = s.emitted.length + 3) := by
  have hnews : newDiscordMessages env s.messageHistory messages =
      mapStamped env 0 (admitted s.messageHistory messages) := by
    unfold newDiscordMessages
    rw [filters_eq_admitted]
  have hlen := mapStamped_length env 0 (admitted s.messageHistory messages)
  rw [fetchDiscordMessages_ok_eq, hnews]
  refine ⟨mapStamped_unified env 0 _, hlen, rfl, rfl, rfl, ?_⟩
  intro h100 h3
  rw [h3] at hlen
  have hdrop : sliceLast 100 (s.messageHistory ++ mapStamped env 0 (admitted s.messageHistory messages))
      = s.messageHistory.drop 3 ++ mapStamped env 0 (admitted s.messageHistory messages) := by
    unfold sliceLast
    rw [List.length_append, h100, hlen]
    exact List.drop_append_of_le_length (by omega)
  refine ⟨?_, hdrop, ?_⟩
  · show (sliceLast 100 _).length = 100
    rw [sliceLast_length, List.length_append, h100, hlen]
    rfl
  · show (s.emitted ++ _).length = _
    rw [List.length_append, List.length_map, hlen]

/-- C5 at the specification's scenario: a full store and a batch with three
admitted messages (and one message of a bot, one blank message). -/
theorem poll_appends_admitted_in_order_witness :
    fullState.messageHistory.length = 100 ∧
    (admitted fullState.messageHistory
      [remoteWithId "1", { remoteWithId "x" with content := "  " }, remoteWithId "2",
        { remoteWithId "y" with author := { bot := true, username := none, global_name := none } },
        remoteWithId "3"]).length = 3 ∧
    (fetchDiscordMessages none (PollOutcome.response true 200 (some
      [remoteWithId "1", { remoteWithId "x" with content := "  " }, remoteWithId "2",
        { remoteWithId "y" with author := { bot := true, username := none, global_name := none } },
        remoteWithId "3"])) stamps fullState).2.messageHistory.length = 100 ∧
    (fetchDiscordMessages none (PollOutcome.response true 200 (some
      [remoteWithId "1", { remoteWithId "x" with content := "  " }, remoteWithId "2",
        { remoteWithId "y" with author := { bot := true, username := none, global_name := none } },
        remoteWithId "3"])) stamps fullState).2.emitted.length = fullState.emitted.length + 3 :=
  ⟨by decide, by decide,
   ((poll_appends_admitted_in_order none 200 _ stamps fullState).2.2.2.2.2
      (by decide) (by decide)).1,
   ((poll_appends_admitted_in_order none 200 _ stamps fullState).2.2.2.2.2
      (by decide) (by decide)).2.2⟩

/-- C8: when the poll fails, by a thrown network error or by a response whose
`ok` is false, `fetchDiscordMessages` completes normally and the store, the
push log, the session set and the emitted events are what they were. -/
theorem failed_poll_skips_tick (envToken : Option String) (env : Nat → Stamp) (s : State) :
    (∀ err,
      (fetchDiscordMessages envToken (PollOutcome.threw err) env s).1 = Completion.normal ∧
      (fetchDiscordMessages envToken (PollOutcome.threw err) env s).2.messageHistory =
        s.messageHistory ∧
      (fetchDiscordMessages envToken (PollOutcome.threw err) env s).2.pushed = s.pushed ∧
      (fetchDiscordMessages envToken (PollOutcome.threw err) env s).2.emitted = s.emitted ∧
      (fetchDiscordMessages envToken (PollOutcome.threw err) env s).2.connectedUsers =
        s.connectedUsers) ∧
    (∀ status json,
      (fetchDiscordMessages envToken (PollOutcome.response false status json) env s).1 =
        Completion.normal ∧
      (fetchDiscordMessages envToken (PollOutcome.response false status json) env
        s).2.messageHistory = s.messageHistory ∧
      (fetchDiscordMessages envToken (PollOutcome.response false status json) env s).2.pushed =
        s.pushed ∧
      (fetchDiscordMessages envToken (PollOutcome.response false status json) env s).2.emitted =
        s.emitted ∧
      (fetchDiscordMessages envToken (PollOutcome.response false status json) env
        s).2.connectedUsers = s.connectedUsers) := by
  constructor
  · intro err
    obtain ⟨errs, h⟩ := fetchDiscordMessages_fail_eq envToken (PollOutcome.threw err) env s
      (fun _ _ e => by cases e)
    rw [h]
    exact ⟨rfl, rfl, rfl, rfl, rfl⟩
  · intro status json
    obtain ⟨errs, h⟩ := fetchDiscordMessages_fail_eq envToken
      (PollOutcome.response false status json) env s (fun _ _ e => by cases e)
    rw [h]
    exact ⟨rfl, rfl, rfl, rfl, rfl⟩

/-! ## The `send_message` handler -/

/-- C6: for a payload with non-blank content and any outcome of the Discord
send, the handler completes normally, the message it built (type `'website'`,
the supplied content, the supplied author when that is a non-empty string and
`'Anonymous'` when it is absent or empty) is the last element of the store,
exactly one event was emitted, a `new_message` with that message to all
sockets, and the store and the emitted events are the same for every other
outcome of the send. -/
theorem send_commits_before_discord (sid : String) (data : Payload) (clk : Clock)
    (out : SendOutcome) (s : State) (c : String) (hc : data.content = some c)
    (_hnb : isBlank c = false) :
    (send_message sid data clk out s).1 = Completion.normal ∧
    (send_message sid data clk out s).2.messageHistory.getLast? =
      some (websiteMessage sid data clk) ∧
    (send_message sid data clk out s).2.emitted =
      s.emitted ++ [Emit.toAll (Event.new_message (websiteMessage sid data clk))] ∧
    (∀ live, recipients live (Emit.toAll (Event.new_message (websiteMessage sid data clk))) =
      live) ∧
    (websiteMessage sid data clk).type = MsgType.website ∧
    (websiteMessage sid data clk).content = some c ∧
    (∀ a, data.author = some a → a ≠ "" → (websiteMessage sid data clk).author = a) ∧
    (data.author = none ∨ data.author = some "" →
      (websiteMessage sid data clk).author = "Anonymous") ∧
    (∀ other,
      (send_message sid data clk other s).2.messageHistory =
        (send_message sid data clk out s).2.messageHistory ∧
      (send_message sid data clk other s).2.emitted =
        (send_message sid data clk out s).2.emitted ∧
      (send_message sid data clk other s).2.pushed =
        (send_message sid data clk out s).2.pushed) := by
  obtain ⟨errs, h⟩ := send_message_eq sid data clk out s
  rw [h]
  refine ⟨rfl, ?_, rfl, fun _ => rfl, rfl, hc, ?_, ?_, ?_⟩
  · show (sliceLast 100 (s.messageHistory ++ [websiteMessage sid data clk])).getLast? = _
    unfold sliceLast
    rw [List.getLast?_drop, List.length_append]
    simp
    omega
  · intro a ha hne
    simp [websiteMessage, jsOr, ha, truthy, hne]
  · intro ha
    rcases ha with ha | ha <;> simp [websiteMessage, jsOr, ha, truthy]
  · intro other
    obtain ⟨errs2, h2⟩ := send_message_eq sid data clk other s
    rw [h2]
    exact ⟨rfl, rfl, rfl⟩

/-- C6 at a concrete input: the fetch inside `sendToDiscord` throws. -/
theorem send_commits_before_discord_witness :
    isBlank "hello" = false ∧
    (send_message "s1" { content := some "hello", author := none } clockAt
      (SendOutcome.threw "ECONNRESET") fullState).2.messageHistory.getLast? =
      some (websiteMessage "s1" { content := some "hello", author := none } clockAt) ∧
    (send_message "s1" { content := some "hello", author := none } clockAt
      (SendOutcome.threw "ECONNRESET") fullState).2.emitted =
      fullState.emitted ++ [Emit.toAll (Event.new_message
        (websiteMessage "s1" { content := some "hello", author := none } clockAt))] :=
  ⟨by decide,
   (send_commits_before_discord "s1" { content := some "hello", author := none } clockAt
      (SendOutcome.threw "ECONNRESET") fullState "hello" rfl (by decide)).2.1,
   (send_commits_before_discord "s1" { content := some "hello", author := none } clockAt
      (SendOutcome.threw "ECONNRESET") fullState "hello" rfl (by decide)).2.2.1⟩

/-- C2 fails on the code: the handler has no test of `data.content`.  With the
whitespace-only content `"   "` on the initial state it stores the message,
emits one `new_message` to all and POSTs one body to Discord. -/
theorem blank_content_is_stored_broadcast_and_forwarded :
    isBlank "   " = true ∧
    (send_message "s1" { content := some "   ", author := some "eve" } clockAt
      (SendOutcome.response true 200) State.init).2.messageHistory =
      [{ id := MsgId.clock 1700000000000, discordId := none, content := some "   ",
         author := "eve", timestamp := "2023-11-14T22:13:20.000Z", type := MsgType.website,
         socketId := some "s1" }] ∧
    (send_message "s1" { content := some "   ", author := some "eve" } clockAt
      (SendOutcome.response true 200) State.init).2.emitted =
      [Emit.toAll (Event.new_message
        { id := MsgId.clock 1700000000000, discordId := none, content := some "   ",
          author := "eve", timestamp := "2023-11-14T22:13:20.000Z", type := MsgType.website,
          socketId := some "s1" })] ∧
    (send_message "s1" { content := some "   ", author := some "eve" } clockAt
      (SendOutcome.response true 200) State.init).2.discordPosts =
      ["**eve** (from website):    "] ∧
    (send_message "s1" { content := none, author := none } clockAt
      (SendOutcome.response true 200) State.init).2.discordPosts =
      ["**Anonymous** (from website): undefined"] := by
  decide

/-- C10 fails on the code: the handler's id is `Date.now()` alone.  Two
different messages admitted at the same clock reading get the same id. -/
theorem same_millisecond_gives_same_id :
    (run none
      [Op.send "s1" { content := some "first", author := some "ann" } clockAt
         (SendOutcome.response true 200),
       Op.send "s2" { content := some "second", author := some "bob" } clockAt
         (SendOutcome.response true 200)]
      State.init).messageHistory.map (fun m => (m.id, m.content)) =
      [(MsgId.clock 1700000000000, some "first"), (MsgId.clock 1700000000000, some "second")] := by
  decide

/-! ## Sessions -/

/-- Every step only appends to the log of emits. -/
theorem step_emitted (envToken : Option String) (op : Op) (s : State) :
    ∃ more, (step envToken op s).2.emitted = s.emitted ++ more := by
  cases op with
  | connect sid => exact ⟨_, by simp [step, connection, socketEmit, ioEmit]; rfl⟩
  | disconnect sid => exact ⟨_, by simp [step, disconnect, ioEmit]; rfl⟩
  | send sid data clk out =>
    obtain ⟨errs, h⟩ := send_message_eq sid data clk out s
    exact ⟨[Emit.toAll (Event.new_message (websiteMessage sid data clk))], by
      simp only [step, h]⟩
  | poll outcome env =>
    by_cases hok : ∃ status messages, outcome = PollOutcome.response true status (some messages)
    · obtain ⟨status, messages, rfl⟩ := hok
      exact ⟨(newDiscordMessages env s.messageHistory messages).map
        (fun m => Emit.toAll (Event.new_message m)), by
        simp only [step, fetchDiscordMessages_ok_eq]⟩
    · obtain ⟨errs, h⟩ := fetchDiscordMessages_fail_eq envToken outcome env s
        (fun status messages e => hok ⟨status, messages, e⟩)
      exact ⟨[], by simp [step, h]⟩

theorem run_emitted (envToken : Option String) (ops : List Op) (s : State) :
    ∃ more, (run envToken ops s).emitted = s.emitted ++ more := by
  induction ops using List.reverseRecOn with
  | nil => exact ⟨[], by simp [run]⟩
  | append_singleton ops op ih =>
    obtain ⟨m1, h1⟩ := ih
    obtain ⟨m2, h2⟩ := step_emitted envToken op (run envToken ops s)
    exact ⟨m1 ++ m2, by rw [run_append, h2, h1, List.append_assoc]⟩

/-- C7: when a socket that is not yet registered connects, the handler
registers it, then emits `message_history` to that socket only, carrying the
store as it is at that moment, then emits `user_count` to all sockets (the new
one among them) with the number of registered sockets, the new one counted.
Whatever happens afterwards only appends to the emits, so the snapshot that
was sent holds no later message. -/
theorem join_gets_snapshot_then_count (sid : String) (s : State)
    (hnew : sid ∉ s.connectedUsers) :
    (connection sid s).1 = Completion.normal ∧
    (connection sid s).2.connectedUsers = s.connectedUsers ++ [sid] ∧
    (connection sid s).2.messageHistory = s.messageHistory ∧
    (connection sid s).2.emitted =
      s.emitted ++ [Emit.toSocket sid (Event.message_history s.messageHistory),
        Emit.toAll (Event.user_count (s.connectedUsers.length + 1))] ∧
    (connection sid s).2.connectedUsers.length = s.connectedUsers.length + 1 ∧
    (∀ live, sid ∈ live →
      recipients live (Emit.toSocket sid (Event.message_history s.messageHistory)) = [sid] ∧
      recipients live (Emit.toAll (Event.user_count (s.connectedUsers.length + 1))) = live ∧
      sid ∈ recipients live (Emit.toAll (Event.user_count (s.connectedUsers.length + 1)))) ∧
    (∀ envToken ops, ∃ later,
      (run envToken ops (connection sid s).2).emitted =
        s.emitted ++ [Emit.toSocket sid (Event.message_history s.messageHistory),
          Emit.toAll (Event.user_count (s.connectedUsers.length + 1))] ++ later) := by
  have hadd : setAdd s.connectedUsers sid = s.connectedUsers ++ [sid] := by
    simp [setAdd, hnew]
  have hem : (connection sid s).2.emitted =
      s.emitted ++ [Emit.toSocket sid (Event.message_history s.messageHistory),
        Emit.toAll (Event.user_count (s.connectedUsers.length + 1))] := by
    simp [connection, socketEmit, ioEmit, hadd]
  refine ⟨rfl, ?_, rfl, hem, ?_, ?_, ?_⟩
  · simp [connection, socketEmit, ioEmit, hadd]
  · simp [connection, socketEmit, ioEmit, hadd]
  · intro live hl
    exact ⟨rfl, rfl, hl⟩
  · intro envToken ops
    obtain ⟨later, h⟩ := run_emitted envToken ops (connection sid s).2
    exact ⟨later, by rw [h, hem]⟩

/-- C7 at a concrete input: a first socket joins a server whose store is
full. -/
theorem join_gets_snapshot_then_count_witness :
    "s1" ∉ fullState.connectedUsers ∧
    (connection "s1" fullState).2.emitted =
      fullState.emitted ++ [Emit.toSocket "s1" (Event.message_history fullState.messageHistory),
        Emit.toAll (Event.user_count (fullState.connectedUsers.length + 1))] :=
  ⟨by decide, (join_gets_snapshot_then_count "s1" fullState (by decide)).2.2.2.1⟩

theorem connectedAfter_snoc (tr : List SessionEvent) (e : SessionEvent) (sid : String) :
    connectedAfter (tr ++ [e]) sid =
      if e.sid = sid then (match e with | .join _ => true | .leave _ => false)
      else connectedAfter tr sid := by
  unfold connectedAfter
  rw [List.reverse_append, List.reverse_singleton, List.singleton_append, List.find?_cons]
  by_cases h : e.sid = sid
  · have hb : (e.sid == sid) = true := by simp [h]
    rw [hb, if_pos h]
    cases e <;> rfl
  · have hb : (e.sid == sid) = false := by simp [h]
    rw [hb, if_neg h]

theorem connectedAfter_mem (tr : List SessionEvent) (sid : String)
    (h : connectedAfter tr sid = true) : sid ∈ tr.map SessionEvent.sid := by
  induction tr using List.reverseRecOn with
  | nil => simp [connectedAfter] at h
  | append_singleton tr e ih =>
    rw [connectedAfter_snoc] at h
    by_cases he : e.sid = sid
    · simp [he]
    · rw [if_neg he] at h
      have := ih h
      simp only [List.map_append, List.mem_append]
      exact Or.inl this

theorem run_sessions_snoc (envToken : Option String) (tr : List SessionEvent)
    (e : SessionEvent) (s : State) :
    run envToken ((tr ++ [e]).map SessionEvent.toOp) s =
      (step envToken e.toOp (run envToken (tr.map SessionEvent.toOp) s)).2 := by
  rw [List.map_append, List.map_singleton, run_append]

/-- The registry invariant: `connectedUsers` has no repetition and holds
exactly the sockets whose last session event is a join. -/
theorem sessions_inv (envToken : Option String) (tr : List SessionEvent) :
    (run envToken (tr.map SessionEvent.toOp) State.init).connectedUsers.Nodup ∧
    ∀ sid, sid ∈ (run envToken (tr.map SessionEvent.toOp) State.init).connectedUsers ↔
      connectedAfter tr sid = true := by
  induction tr using List.reverseRecOn with
  | nil => exact ⟨List.nodup_nil, fun sid => by simp [run, State.init, connectedAfter]⟩
  | append_singleton tr e ih =>
    rw [run_sessions_snoc]
    obtain ⟨hnd, hmem⟩ := ih
    cases e with
    | join x =>
      have hcu : (step envToken (SessionEvent.join x).toOp
          (run envToken (tr.map SessionEvent.toOp) State.init)).2.connectedUsers =
          setAdd (run envToken (tr.map SessionEvent.toOp) State.init).connectedUsers x := rfl
      rw [hcu]
      unfold setAdd
      by_cases hx : x ∈ (run envToken (tr.map SessionEvent.toOp) State.init).connectedUsers
      · rw [if_pos hx]
        refine ⟨hnd, fun sid => ?_⟩
        rw [connectedAfter_snoc]
        by_cases h : x = sid
        · subst h; simp [SessionEvent.sid, hx]
        · simp [SessionEvent.sid, h, hmem]
      · rw [if_neg hx]
        refine ⟨?_, fun sid => ?_⟩
        · rw [List.nodup_append]
          exact ⟨hnd, List.nodup_singleton x, by
            intro a ha hb
            rw [List.mem_singleton] at hb
            subst hb
            exact hx ha⟩
        · rw [connectedAfter_snoc]
          by_cases h : x = sid
          · subst h; simp [SessionEvent.sid]
          · have h2 : ¬ sid = x := fun e => h e.symm
            simp [SessionEvent.sid, h, h2, hmem]
    | leave x =>
      have hcu : (step envToken (SessionEvent.leave x).toOp
          (run envToken (tr.map SessionEvent.toOp) State.init)).2.connectedUsers =
          setDelete (run envToken (tr.map SessionEvent.toOp) State.init).connectedUsers x := rfl
      rw [hcu]
      unfold setDelete
      refine ⟨hnd.filter _, fun sid => ?_⟩
      rw [connectedAfter_snoc, List.mem_filter]
      by_cases h : x = sid
      · subst h; simp [SessionEvent.sid]
      · have h2 : ¬ sid = x := fun e => h e.symm
        simp [SessionEvent.sid, h, h2, hmem]

theorem sessions_length (envToken : Option String) (tr : List SessionEvent) :
    (run envToken (tr.map SessionEvent.toOp) State.init).connectedUsers.length = liveCount tr := by
  obtain ⟨hnd, hmem⟩ := sessions_inv envToken tr
  unfold liveCount
  apply List.Perm.length_eq
  rw [List.perm_ext_iff_of_nodup hnd ((List.nodup_dedup _).filter _)]
  intro sid
  rw [hmem, List.mem_filter, List.mem_dedup]
  exact ⟨fun h => ⟨connectedAfter_mem tr sid h, h⟩, fun h => h.2⟩

theorem userCounts_session_step (envToken : Option String) (e : SessionEvent) (s : State) :
    userCounts (step envToken e.toOp s).2.emitted =
      userCounts s.emitted ++ [(step envToken e.toOp s).2.connectedUsers.length] := by
  cases e with
  | join x => simp [SessionEvent.toOp, step, connection, socketEmit, ioEmit, userCounts]
  | leave x => simp [SessionEvent.toOp, step, disconnect, ioEmit, userCounts]

theorem length_filter_ne_of_mem (l : List String) (x : String) (hnd : l.Nodup) (hx : x ∈ l) :
    (l.filter (fun y => y != x)).length + 1 = l.length := by
  rw [← List.Nodup.erase_eq_filter hnd x, List.length_erase_of_mem hx]
  have : 0 < l.length := List.length_pos_of_mem hx
  omega

/-- C9: after any trace of connect and disconnect events, `connectedUsers` has
no repetition, holds exactly the sockets whose last event is a connect, and
its size is the number of connected sockets.  The next event appends exactly
one `user_count` to the values broadcast so far, and that value is the number
of sockets connected after the event.  When the event is the disconnect of a
connected socket, the socket is no longer registered and the broadcast count
is one lower than the count before. -/
theorem user_count_tracks_sessions (envToken : Option String) (tr : List SessionEvent)
    (e : SessionEvent) :
    (run envToken (tr.map SessionEvent.toOp) State.init).connectedUsers.Nodup ∧
    (∀ sid, sid ∈ (run envToken (tr.map SessionEvent.toOp) State.init).connectedUsers ↔
      connectedAfter tr sid = true) ∧
    (run envToken (tr.map SessionEvent.toOp) State.init).connectedUsers.length = liveCount tr ∧
    userCounts (run envToken ((tr ++ [e]).map SessionEvent.toOp) State.init).emitted =
      userCounts (run envToken (tr.map SessionEvent.toOp) State.init).emitted ++
        [liveCount (tr ++ [e])] ∧
    (∀ sid, e = SessionEvent.leave sid → connectedAfter tr sid = true →
      sid ∉ (run envToken ((tr ++ [e]).map SessionEvent.toOp) State.init).connectedUsers ∧
      liveCount (tr ++ [e]) + 1 = liveCount tr) := by
  obtain ⟨hnd, hmem⟩ := sessions_inv envToken tr
  refine ⟨hnd, hmem, sessions_length envToken tr, ?_, ?_⟩
  · rw [← sessions_length envToken (tr ++ [e]), run_sessions_snoc, userCounts_session_step]
  · intro sid he hc
    subst he
    constructor
    · rw [(sessions_inv envToken (tr ++ [SessionEvent.leave sid])).2 sid, connectedAfter_snoc]
      simp [SessionEvent.sid]
    · rw [← sessions_length envToken (tr ++ [SessionEvent.leave sid]),
        ← sessions_length envToken tr, run_sessions_snoc]
      exact length_filter_ne_of_mem _ sid hnd ((hmem sid).mpr hc)

/-- C9 at a concrete trace: two sockets connect, then the first disconnects;
the counts broadcast are 1, 2, 1. -/
theorem user_count_tracks_sessions_witness :
    connectedAfter [SessionEvent.join "a", SessionEvent.join "b"] "a" = true ∧
    userCounts (run none
      ([SessionEvent.join "a", SessionEvent.join "b", SessionEvent.leave "a"].map
        SessionEvent.toOp) State.init).emitted = [1, 2, 1] ∧
    "a" ∉ (run none
      (([SessionEvent.join "a", SessionEvent.join "b"] ++ [SessionEvent.leave "a"]).map
        SessionEvent.toOp) State.init).connectedUsers ∧
    liveCount ([SessionEvent.join "a", SessionEvent.join "b"] ++ [SessionEvent.leave "a"]) + 1 =
      liveCount [SessionEvent.join "a", SessionEvent.join "b"] :=
  ⟨by decide, by decide,
   ((user_count_tracks_sessions none [SessionEvent.join "a", SessionEvent.join "b"]
      (SessionEvent.leave "a")).2.2.2.2 "a" rfl (by decide)).1,
   ((user_count_tracks_sessions none [SessionEvent.join "a", SessionEvent.join "b"]
      (SessionEvent.leave "a")).2.2.2.2 "a" rfl (by decide)).2⟩

end ChatServer
